import Mathlib

/-!
Verification of the LISA sub-test-aware notifier stack
(`lisa/notifiers/subtest_aware_notifier.py`, `lisa/notifiers/junit.py`,
`lisa/notifiers/subtest_result_collector.py`).

The Python code is shallowly embedded: mutable per-case dictionaries become
association lists with Python-dict semantics (insertion order preserved,
assignment replaces in place), exceptions become `Except LisaErr`, and
`float` elapsed values are modelled as exact rationals `ℚ` (the claims under
study are about the elapsed-time bookkeeping algorithm, not about rounding).
-/

set_option autoImplicit false

universe u

/-- Modelled from the spec (lisa/messages.py is not part of the sampled
sources): terminal/non-terminal test statuses.  Case events carry
`status ∈ \x7bRunning, Skipped, Passed, Failed, Attempted, …\x7d`; sub events
carry `status ∈ \x7bRunning, Passed, Failed, Skipped, Attempted\x7d`. -/
inductive TestStatus where
  | QUEUED
  | RUNNING
  | PASSED
  | FAILED
  | SKIPPED
  | ATTEMPTED
deriving DecidableEq, Repr

/-- Modelled from the spec: `is_completed` is derived — the status is
terminal (Passed, Failed, Skipped or Attempted). -/
def TestStatus.is_completed : TestStatus → Bool
  | .PASSED => true
  | .FAILED => true
  | .SKIPPED => true
  | .ATTEMPTED => true
  | _ => false

/-- Modelled from the spec: run-level statuses `\x7bInitializing, Success, Failed\x7d`. -/
inductive TestRunStatus where
  | INITIALIZING
  | SUCCESS
  | FAILED
deriving DecidableEq, Repr

/-- Modelled from the spec: a SubEvent (`SubTestMessage`).  `id_` is the
opaque identifier shared with the owning case; `elapsed` is seconds since
run start.  Default-constructed messages (`SubTestMessage()` in the source)
have empty/zero fields. -/
structure SubTestMessage where
  id_ : String := ""
  name : String := ""
  status : TestStatus := TestStatus.QUEUED
  message : String := ""
  stacktrace : Option String := none
  elapsed : ℚ := 0
deriving DecidableEq, Repr

/-- Modelled from the spec: a CaseEvent (`TestResultMessage`).  The `time`
field stands for the already-formatted timestamp string the JUnit writer
copies into the suite's `timestamp` attribute (datetime formatting is
outside the sampled sources). -/
structure TestResultMessage where
  id_ : String := ""
  suite_full_name : String := ""
  name : String := ""
  status : TestStatus := TestStatus.QUEUED
  message : String := ""
  stacktrace : Option String := none
  elapsed : ℚ := 0
  time : String := ""
deriving DecidableEq, Repr

/-- Modelled from the spec: a RunEvent (`TestRunMessage`). -/
structure TestRunMessage where
  status : TestRunStatus := TestRunStatus.INITIALIZING
  runbook_name : String := ""
  elapsed : ℚ := 0
deriving DecidableEq, Repr

/-- The tagged union over the three event kinds the notifier subscribes to
(`_subscribed_message_type` / the `isinstance` dispatch in
`_received_message`). -/
inductive Message where
  | run (m : TestRunMessage)
  | result (m : TestResultMessage)
  | sub (m : SubTestMessage)
deriving DecidableEq, Repr

deriving instance DecidableEq for Except

/-- Python-dict lookup `d[k]` / `d.get(k)` on an insertion-ordered
association list. -/
def dictGet {α : Type u} : List (String × α) → String → Option α
  | [], _ => none
  | (k, v) :: rest, key => if k = key then some v else dictGet rest key

/-- Python-dict assignment `d[k] = v`: replaces the value in place if the
key is present (keeping its position, as Python dicts do), otherwise
appends the new binding at the end. -/
def dictSet {α : Type u} : List (String × α) → String → α → List (String × α)
  | [], key, v => [(key, v)]
  | (k, v') :: rest, key, v =>
      if k = key then (key, v) :: rest else (k, v') :: dictSet rest key v

/-- `TestCaseRuntimeInfo` from `subtest_aware_notifier.py`: the per-case
mutable runtime record. -/
structure TestCaseRuntimeInfo where
  suite_full_name : String := ""
  name : String := ""
  active_subtest_name : Option String := none
  last_seen_timestamp : ℚ := 0
  subtest_total_elapsed : ℚ := 0
deriving DecidableEq, Repr

/-- The exceptions the embedded code can raise: `LisaException msg` (the
spec's ConsistencyError / NotStartedError are LisaExceptions distinguished
by message), Python `KeyError` from an unguarded dict lookup, and
`NotImplementedError` from an un-overridden abstract hook. -/
inductive LisaErr where
  | lisaException (msg : String)
  | notImplementedErr
  | keyErr (key : String)
deriving DecidableEq, Repr

/-- The report-sink contract: the five abstract hooks of
`SubtestAwareNotifier` that a concrete sink provides
(`_test_run_started`, `_test_run_completed`, `_init_test_case_info`,
`_add_test_case_result`, `_add_subtest_case_result`), acting on sink
state `σ`. -/
structure Sink (σ : Type) where
  test_run_started : TestRunMessage → σ → Except LisaErr σ
  test_run_completed : TestRunMessage → σ → Except LisaErr σ
  init_test_case_info : TestResultMessage → σ → Except LisaErr σ
  add_test_case_result : TestResultMessage → String → String → ℚ → σ → Except LisaErr σ
  add_subtest_case_result : SubTestMessage → String → String → ℚ → σ → Except LisaErr σ

/-- The aggregator's state: `self._testcases_info` plus the driven sink's
state. -/
structure AggState (σ : Type) where
  testcases_info : List (String × TestCaseRuntimeInfo) := []
  sink : σ
deriving DecidableEq, Repr

/-- `_set_test_case_runtime_info`: build a fresh `TestCaseRuntimeInfo` and
store it under the message's id (overwriting any previous record). -/
def set_test_case_runtime_info {σ : Type} (message : TestResultMessage)
    (st : AggState σ) : AggState σ :=
  let testcase_info : TestCaseRuntimeInfo :=
    { suite_full_name := message.suite_full_name
      name := message.name
      last_seen_timestamp := message.elapsed }
  { st with testcases_info := dictSet st.testcases_info message.id_ testcase_info }

/-- The tail of `_sub_test_case_completed` after the active-name check:
compute the sub-test's elapsed slice, add it to `subtest_total_elapsed`,
emit the sub-test result, and advance `last_seen_timestamp`.  `info` is the
record with `active_subtest_name` already cleared when it was set. -/
def sub_test_case_completed_core {σ : Type} (sink : Sink σ)
    (message : SubTestMessage) (info : TestCaseRuntimeInfo)
    (st : AggState σ) : Except LisaErr (AggState σ) :=
  let elapsed := message.elapsed - info.last_seen_timestamp
  let info := { info with subtest_total_elapsed := info.subtest_total_elapsed + elapsed }
  match sink.add_subtest_case_result message info.suite_full_name
      (info.suite_full_name ++ "." ++ info.name) elapsed st.sink with
  | Except.error e => Except.error e
  | Except.ok s =>
      Except.ok
        { testcases_info :=
            dictSet st.testcases_info message.id_
              { info with last_seen_timestamp := message.elapsed }
          sink := s }

/-- `_sub_test_case_completed`: unguarded lookup of the case record
(KeyError if absent); if a sub-test is active and its name differs from the
completing one, raise the ConsistencyError `LisaException`; otherwise clear
the active name (when set) and account for the elapsed slice. -/
def sub_test_case_completed {σ : Type} (sink : Sink σ)
    (message : SubTestMessage) (st : AggState σ) : Except LisaErr (AggState σ) :=
  match dictGet st.testcases_info message.id_ with
  | none => Except.error (LisaErr.keyErr message.id_)
  | some info =>
    match info.active_subtest_name with
    | some active =>
        if active = message.name then
          sub_test_case_completed_core sink message
            { info with active_subtest_name := none } st
        else
          Except.error (LisaErr.lisaException
            "Completed sub-test is not the same as the active sub-test.")
    | none => sub_test_case_completed_core sink message info st

/-- The final two assignments of `_sub_test_case_running`: mark the new
sub-test as active and record its start time.  The lookup models the
Python aliasing of the mutable record through the dict (the `none` branch
is unreachable at every call site). -/
def mark_subtest_running {σ : Type} (message : SubTestMessage)
    (st : AggState σ) : AggState σ :=
  match dictGet st.testcases_info message.id_ with
  | none => st
  | some info =>
      let info := { info with active_subtest_name := some message.name,
                              last_seen_timestamp := message.elapsed }
      { st with testcases_info := dictSet st.testcases_info message.id_ info }

/-- `_sub_test_case_running`: unguarded lookup (KeyError if absent); if a
sub-test is already active, synthesize a PASSED completion for it at the
new event's elapsed and process it; then mark the new sub-test running. -/
def sub_test_case_running {σ : Type} (sink : Sink σ)
    (message : SubTestMessage) (st : AggState σ) : Except LisaErr (AggState σ) :=
  match dictGet st.testcases_info message.id_ with
  | none => Except.error (LisaErr.keyErr message.id_)
  | some info =>
    match info.active_subtest_name with
    | some prev =>
        let completed_message : SubTestMessage :=
          { id_ := message.id_
            name := prev
            status := TestStatus.PASSED
            elapsed := message.elapsed }
        match sub_test_case_completed sink completed_message st with
        | Except.error e => Except.error e
        | Except.ok st1 => Except.ok (mark_subtest_running message st1)
    | none => Except.ok (mark_subtest_running message st)

/-- `_test_case_running`: call the sink's init hook, then (re)create the
runtime record. -/
def test_case_running {σ : Type} (sink : Sink σ)
    (message : TestResultMessage) (st : AggState σ) : Except LisaErr (AggState σ) :=
  match sink.init_test_case_info message st.sink with
  | Except.error e => Except.error e
  | Except.ok s => Except.ok (set_test_case_runtime_info message { st with sink := s })

/-- The tail of `_test_case_completed`: compute the case's elapsed time not
attributed to sub-tests and emit the case result.  The lookup models the
aliasing of the record mutated by an implicit sub-test closure just before
(the `none` branch is unreachable at the call sites). -/
def emit_case_result {σ : Type} (sink : Sink σ)
    (message : TestResultMessage) (st : AggState σ) : Except LisaErr (AggState σ) :=
  match dictGet st.testcases_info message.id_ with
  | none => Except.error (LisaErr.keyErr message.id_)
  | some info =>
    let elapsed := message.elapsed - info.subtest_total_elapsed
    match sink.add_test_case_result message message.suite_full_name
        message.suite_full_name elapsed st.sink with
    | Except.error e => Except.error e
    | Except.ok s => Except.ok { st with sink := s }

/-- `_test_case_completed`: call the sink's init hook; lazily create the
runtime record if the id was never seen running; if a sub-test is still
active, synthesize a completion for it inheriting the case's status,
message and stacktrace; then emit the case result. -/
def test_case_completed {σ : Type} (sink : Sink σ)
    (message : TestResultMessage) (st : AggState σ) : Except LisaErr (AggState σ) :=
  match sink.init_test_case_info message st.sink with
  | Except.error e => Except.error e
  | Except.ok s =>
    let st : AggState σ := { st with sink := s }
    let st :=
      if (dictGet st.testcases_info message.id_).isNone then
        set_test_case_runtime_info message st
      else st
    match dictGet st.testcases_info message.id_ with
    | none => Except.error (LisaErr.keyErr message.id_)
    | some info =>
      match info.active_subtest_name with
      | some active =>
          let completed_message : SubTestMessage :=
            { id_ := message.id_
              name := active
              status := message.status
              message := message.message
              stacktrace := message.stacktrace
              elapsed := message.elapsed }
          match sub_test_case_completed sink completed_message st with
          | Except.error e => Except.error e
          | Except.ok st1 => emit_case_result sink message st1
      | none => emit_case_result sink message st

/-- `_received_test_result`: a Running or Skipped status marks the case
running; independently (not `elif` in the source), a terminal status
triggers the completion path — so a Skipped event does both. -/
def received_test_result {σ : Type} (sink : Sink σ)
    (message : TestResultMessage) (st : AggState σ) : Except LisaErr (AggState σ) :=
  let first : Except LisaErr (AggState σ) :=
    if message.status = TestStatus.RUNNING ∨ message.status = TestStatus.SKIPPED then
      test_case_running sink message st
    else Except.ok st
  match first with
  | Except.error e => Except.error e
  | Except.ok st1 =>
      if message.status.is_completed then test_case_completed sink message st1
      else Except.ok st1

/-- `_received_sub_test`: dispatch on the sub event's status. -/
def received_sub_test {σ : Type} (sink : Sink σ)
    (message : SubTestMessage) (st : AggState σ) : Except LisaErr (AggState σ) :=
  if message.status = TestStatus.RUNNING then
    sub_test_case_running sink message st
  else if message.status.is_completed then
    sub_test_case_completed sink message st
  else Except.ok st

/-- `_received_test_run`: Initializing forwards to the run-started hook;
Failed or Success forwards to the run-completed hook. -/
def received_test_run {σ : Type} (sink : Sink σ)
    (message : TestRunMessage) (st : AggState σ) : Except LisaErr (AggState σ) :=
  if message.status = TestRunStatus.INITIALIZING then
    match sink.test_run_started message st.sink with
    | Except.error e => Except.error e
    | Except.ok s => Except.ok { st with sink := s }
  else if message.status = TestRunStatus.FAILED ∨ message.status = TestRunStatus.SUCCESS then
    match sink.test_run_completed message st.sink with
    | Except.error e => Except.error e
    | Except.ok s => Except.ok { st with sink := s }
  else Except.ok st

/-- `_received_message`: the `isinstance` dispatch over the three event
kinds. -/
def received_message {σ : Type} (sink : Sink σ) :
    Message → AggState σ → Except LisaErr (AggState σ)
  | Message.run m, st => received_test_run sink m st
  | Message.result m, st => received_test_result sink m st
  | Message.sub m, st => received_sub_test sink m st

/-- Process a whole event stream in arrival order; the first raised
exception aborts processing (it propagates out of `_received_message`). -/
def processEvents {σ : Type} (sink : Sink σ) :
    List Message → AggState σ → Except LisaErr (AggState σ)
  | [], st => Except.ok st
  | e :: rest, st =>
    match received_message sink e st with
    | Except.error err => Except.error err
    | Except.ok st1 => processEvents sink rest st1

/-- A result record emitted by the aggregator to its sink — the output
contract (`CaseResult` / `SubResult` of the spec), carrying exactly the
arguments of the corresponding `_add_*_case_result` hook call. -/
inductive Result where
  | subResult (m : SubTestMessage) (suite_full_name : String)
      (testcase_full_name : String) (elapsed : ℚ)
  | caseResult (m : TestResultMessage) (suite_full_name : String)
      (class_name : String) (elapsed : ℚ)
deriving DecidableEq, Repr

/-- The recording sink: a sink whose state is the ordered list of result
records it has been handed.  The run and init hooks succeed without
effect; the result hooks append.  It realizes the sink contract and lets
the aggregator's emission behaviour be observed. -/
def resultsSink : Sink (List Result) where
  test_run_started := fun _ s => Except.ok s
  test_run_completed := fun _ s => Except.ok s
  init_test_case_info := fun _ s => Except.ok s
  add_test_case_result := fun m suite cls e s =>
    Except.ok (s ++ [Result.caseResult m suite cls e])
  add_subtest_case_result := fun m suite full e s =>
    Except.ok (s ++ [Result.subResult m suite full e])

/-- The sum of the elapsed values of all `SubResult` records in an
emission list. -/
def sumSubElapsed : List Result → ℚ
  | [] => 0
  | Result.subResult _ _ _ e :: rest => e + sumSubElapsed rest
  | Result.caseResult _ _ _ _ :: rest => sumSubElapsed rest

/-- A `<failure>`/`<skipped>` child element appended by
`add_failed_or_skipped` in `junit.py`. -/
inductive JLeaf where
  | failure (message : String) (text : Option String)
  | skipped (message : String)
deriving DecidableEq, Repr

/-- A child of a `<testcase>` element: either a failure/skipped leaf or a
`<subtestcase>` element (which itself may carry failure/skipped leaves). -/
inductive JChild where
  | leaf (l : JLeaf)
  | subtestcase (attribs : List (String × String)) (leaves : List JLeaf)
deriving DecidableEq, Repr

/-- `add_failed_or_skipped`: Failed appends a `<failure>` child carrying
the message and the stacktrace text; Skipped or Attempted appends a
`<skipped>` child; anything else appends nothing. -/
def add_failed_or_skipped (status : TestStatus) (message : String)
    (stacktrace : Option String) : Option JLeaf :=
  match status with
  | TestStatus.FAILED => some (JLeaf.failure message stacktrace)
  | TestStatus.SKIPPED => some (JLeaf.skipped message)
  | TestStatus.ATTEMPTED => some (JLeaf.skipped message)
  | _ => none

/-- `_TestSuiteXmlInfo`: the `<testsuite>` element's attributes plus the
running counters. -/
structure TestSuiteXmlInfo where
  attribs : List (String × String) := []
  test_count : Nat := 0
  failed_count : Nat := 0
deriving DecidableEq, Repr

/-- `_TestCaseXmlInfo`: the `<testcase>` element's attributes and child
elements. -/
structure TestCaseXmlInfo where
  attribs : List (String × String) := []
  children : List JChild := []
deriving DecidableEq, Repr

/-- The JUnit notifier's state: the root `<testsuites>` element's
attributes and the two dictionaries keyed by suite full name and case full
name. -/
structure JUnitState where
  testsuites_attribs : List (String × String) := []
  testsuites_xml_info : List (String × TestSuiteXmlInfo) := []
  testcases_xml_info : List (String × TestCaseXmlInfo) := []
deriving DecidableEq, Repr

/-- Zero-pad a thousandths remainder to three digits. -/
def padThousandths (k : Nat) : String :=
  if k < 10 then "00" ++ toString k
  else if k < 100 then "0" ++ toString k
  else toString k

/-- `_get_elapsed_str`: Python `f"\x7belapsed:.3f\x7d"` — fixed three decimal
digits, rounding half to even (negative zero is rendered without the sign,
an edge case no elapsed value here reaches). -/
def get_elapsed_str (elapsed : ℚ) : String :=
  let scaled : ℚ := elapsed * 1000
  let fl : ℤ := ⌊scaled⌋
  let frac : ℚ := scaled - fl
  let n : ℤ :=
    if frac > 1/2 then fl + 1
    else if frac < 1/2 then fl
    else if fl % 2 = 0 then fl else fl + 1
  if n < 0 then
    "-" ++ toString ((-n).toNat / 1000) ++ "." ++ padThousandths ((-n).toNat % 1000)
  else
    toString (n.toNat / 1000) ++ "." ++ padThousandths (n.toNat % 1000)

/-- `_create_or_get_testsuite_info`: on first sight of a suite, create its
`<testsuite>` element with `name` and `timestamp` attributes. -/
def create_or_get_testsuite_info (message : TestResultMessage)
    (s : JUnitState) : JUnitState :=
  if (dictGet s.testsuites_xml_info message.suite_full_name).isNone then
    let testsuite_info : TestSuiteXmlInfo :=
      { attribs := dictSet (dictSet [] "name" message.suite_full_name)
          "timestamp" message.time }
    { s with testsuites_xml_info :=
        dictSet s.testsuites_xml_info message.suite_full_name testsuite_info }
  else s

/-- `_set_test_case_info` (junit.py): on first sight of a case, ensure its
suite exists and create the `<testcase>` element with its `name`
attribute.  NOTE: the parent class's abstract hook is named
`_init_test_case_info`; `JUnit` defines this method under a different name
and never overrides the hook. -/
def junit_set_test_case_info (message : TestResultMessage)
    (s : JUnitState) : JUnitState :=
  let case_full_name := message.suite_full_name ++ "." ++ message.name
  if (dictGet s.testcases_xml_info case_full_name).isNone then
    let s := create_or_get_testsuite_info message s
    let testcase_info : TestCaseXmlInfo := { attribs := dictSet [] "name" message.name }
    { s with testcases_xml_info :=
        dictSet s.testcases_xml_info case_full_name testcase_info }
  else s

/-- `_test_run_started` (junit.py): set the root element's `name`. -/
def junit_test_run_started (message : TestRunMessage) (s : JUnitState) : JUnitState :=
  { s with testsuites_attribs := dictSet s.testsuites_attribs "name" message.runbook_name }

/-- `_test_run_completed` (junit.py): write each suite's `tests`,
`failures`, `errors` attributes from its counters while accumulating the
totals, then write the root's `time`, `tests`, `failures`, `errors`. -/
def junit_test_run_completed (message : TestRunMessage) (s : JUnitState) : JUnitState :=
  let step := fun (acc : List (String × TestSuiteXmlInfo) × Nat × Nat)
      (kv : String × TestSuiteXmlInfo) =>
    let tsi := kv.2
    let attribs :=
      dictSet (dictSet (dictSet tsi.attribs
        "tests" (toString tsi.test_count))
        "failures" (toString tsi.failed_count))
        "errors" "0"
    (acc.1 ++ [(kv.1, { tsi with attribs := attribs })],
     acc.2.1 + tsi.test_count, acc.2.2 + tsi.failed_count)
  let folded := s.testsuites_xml_info.foldl step ([], 0, 0)
  let root :=
    dictSet (dictSet (dictSet (dictSet s.testsuites_attribs
      "time" (get_elapsed_str message.elapsed))
      "tests" (toString folded.2.1))
      "failures" (toString folded.2.2))
      "errors" "0"
  { s with testsuites_xml_info := folded.1, testsuites_attribs := root }

/-- `_add_test_case_result` (junit.py): NotStartedError checks on the suite
and the case, then set the case's `name`/`classname`/`time` attributes,
append a failure/skipped child, and increment the suite's `test_count`.
The suite's `failed_count` is NOT incremented anywhere (mirrors the
source). -/
def junit_add_test_case_result (message : TestResultMessage)
    (suite_full_name : String) (class_name : String) (elapsed : ℚ)
    (s : JUnitState) : Except LisaErr JUnitState :=
  match dictGet s.testsuites_xml_info suite_full_name with
  | none => Except.error (LisaErr.lisaException "Test suite not started.")
  | some testsuite_info =>
    let case_full_name := message.suite_full_name ++ "." ++ message.name
    match dictGet s.testcases_xml_info case_full_name with
    | none => Except.error (LisaErr.lisaException
        ("Test case " ++ case_full_name ++ " not started."))
    | some testcase_info =>
      let attribs :=
        dictSet (dictSet (dictSet testcase_info.attribs
          "name" message.name)
          "classname" class_name)
          "time" (get_elapsed_str elapsed)
      let children := testcase_info.children ++
        (add_failed_or_skipped message.status message.message message.stacktrace).toList.map
          JChild.leaf
      let testsuite_info := { testsuite_info with test_count := testsuite_info.test_count + 1 }
      Except.ok
        { s with
            testcases_xml_info := dictSet s.testcases_xml_info case_full_name
              { testcase_info with attribs := attribs, children := children }
            testsuites_xml_info := dictSet s.testsuites_xml_info suite_full_name
              testsuite_info }

/-- `_add_subtest_case_result` (junit.py): NotStartedError check on the
owning case, then append a `<subtestcase>` element with
`name`/`testcase`/`time` attributes and a failure/skipped leaf.  Suite
counters are untouched. -/
def junit_add_subtest_case_result (message : SubTestMessage)
    (suite_full_name : String) (testcase_full_name : String) (elapsed : ℚ)
    (s : JUnitState) : Except LisaErr JUnitState :=
  match dictGet s.testcases_xml_info testcase_full_name with
  | none => Except.error (LisaErr.lisaException
      ("Test case " ++ testcase_full_name ++ " not started."))
  | some testcase_info =>
    let attribs :=
      dictSet (dictSet (dictSet []
        "name" message.name)
        "testcase" testcase_full_name)
        "time" (get_elapsed_str elapsed)
    let leaves := (add_failed_or_skipped message.status message.message message.stacktrace).toList
    let testcase_info := { testcase_info with children :=
        testcase_info.children ++ [JChild.subtestcase attribs leaves] }
    Except.ok
      { s with testcases_xml_info :=
          dictSet s.testcases_xml_info testcase_full_name testcase_info }

/-- The `JUnit` notifier as a sink.  Its `_init_test_case_info` slot is the
parent class's implementation, which raises `NotImplementedError`: `JUnit`
defines `_set_test_case_info` but never overrides the hook the aggregator
calls (mirrors the source). -/
def junitSink : Sink JUnitState where
  test_run_started := fun m s => Except.ok (junit_test_run_started m s)
  test_run_completed := fun m s => Except.ok (junit_test_run_completed m s)
  init_test_case_info := fun _ _ => Except.error LisaErr.notImplementedErr
  add_test_case_result := junit_add_test_case_result
  add_subtest_case_result := junit_add_subtest_case_result

/-- `true` iff the `<testcase>` element has a direct `<failure>` child,
i.e. the case was reported Failed. -/
def case_has_failure (tci : TestCaseXmlInfo) : Bool :=
  tci.children.any fun c =>
    match c with
    | JChild.leaf (JLeaf.failure _ _) => true
    | _ => false

/-- The number of Failed cases recorded in the JUnit document. -/
def failedCaseCount (s : JUnitState) : Nat :=
  (s.testcases_xml_info.filter fun kv => case_has_failure kv.2).length

/-- The `SubTestResultCollector`'s state: case full name ↦ (sub-test name
↦ label).  The source annotates the inner values as `bool` but stores the
strings "PASSED"/"FAILED"/"SKIPPED"; the behaviour (strings) is modelled. -/
structure SCState where
  test_cases : List (String × List (String × String)) := []
deriving DecidableEq, Repr

/-- `_init_test_case_info` (subtest_result_collector.py): idempotently
create an empty sub-test map for the case. -/
def sc_init_test_case_info (message : TestResultMessage) (s : SCState) : SCState :=
  let case_full_name := message.suite_full_name ++ "." ++ message.name
  if (dictGet s.test_cases case_full_name).isNone then
    { s with test_cases := dictSet s.test_cases case_full_name [] }
  else s

/-- `_add_subtest_case_result` (subtest_result_collector.py):
NotStartedError if the owning case is unknown; otherwise record the
sub-test's label under its name (overwriting any previous label). -/
def sc_add_subtest_case_result (message : SubTestMessage)
    (suite_full_name : String) (testcase_full_name : String) (elapsed : ℚ)
    (s : SCState) : Except LisaErr SCState :=
  match dictGet s.test_cases testcase_full_name with
  | none => Except.error (LisaErr.lisaException
      ("Test case " ++ testcase_full_name ++ " not started."))
  | some testcase_info =>
    let testcase_info :=
      match message.status with
      | TestStatus.PASSED => dictSet testcase_info message.name "PASSED"
      | TestStatus.FAILED => dictSet testcase_info message.name "FAILED"
      | TestStatus.SKIPPED => dictSet testcase_info message.name "SKIPPED"
      | TestStatus.ATTEMPTED => dictSet testcase_info message.name "SKIPPED"
      | _ => testcase_info
    Except.ok { s with test_cases := dictSet s.test_cases testcase_full_name testcase_info }

/-- The label `_add_subtest_case_result` stores for a terminal status. -/
def scLabel : TestStatus → String
  | TestStatus.PASSED => "PASSED"
  | TestStatus.FAILED => "FAILED"
  | _ => "SKIPPED"

/-- One printed line per sub-test in `finalize`. -/
def scSubLine (sub : String × String) : String :=
  "|--- " ++ sub.1 ++ ":\t" ++ sub.2

/-- `finalize` (subtest_result_collector.py), as the ordered list of lines
it logs: two header lines, then for each case with at least one recorded
sub-test its full name followed by its sub-test lines; cases with an empty
sub-test map are skipped. -/
def sc_finalize (s : SCState) : List String :=
  ["________________________________________", "SubTest Case Results"] ++
    s.test_cases.foldl
      (fun acc kv =>
        if kv.2.length = 0 then acc
        else acc ++ [kv.1] ++ kv.2.map scSubLine)
      []

/-- Boolean check that a list of rationals is non-decreasing starting from
`t` — the well-formedness (monotone clock) precondition of the spec. -/
def nondecFrom (t : ℚ) : List ℚ → Bool
  | [] => true
  | x :: xs => if t ≤ x then nondecFrom x xs else false

/-- Every `CaseResult` record in the emission list has a non-negative
elapsed value. -/
def caseResultsNonneg (rs : List Result) : Prop :=
  ∀ m s c e, Result.caseResult m s c e ∈ rs → 0 ≤ e

/-- The inductive invariant of the aggregator driving the recording sink,
for the case `i`, when every event processed so far had elapsed `≤ t`: the
case record exists, its accumulated sub-test time is non-negative, bounded
by the last seen timestamp (itself bounded by `t`), equals the sum of the
emitted sub-test elapsed slices, and every emitted case result is
non-negative. -/
def AggInv (i : String) (t : ℚ) (st : AggState (List Result)) : Prop :=
  ∃ info, dictGet st.testcases_info i = some info ∧
    0 ≤ info.subtest_total_elapsed ∧
    info.subtest_total_elapsed ≤ info.last_seen_timestamp ∧
    info.last_seen_timestamp ≤ t ∧
    sumSubElapsed st.sink = info.subtest_total_elapsed ∧
    caseResultsNonneg st.sink

/-- The empty aggregator state over the recording sink. -/
def emptyAgg : AggState (List Result) := { testcases_info := [], sink := [] }

/-- The per-case map holds at most one record per id: its keys are
pairwise distinct. -/
def keysNodup (d : List (String × TestCaseRuntimeInfo)) : Prop :=
  (d.map Prod.fst).Nodup

/-- The event sequence of the spec's first end-to-end scenario: a case
runs, one sub-test runs and passes inside it, the case passes. -/
def c4_events : List Message :=
  [Message.result { id_ := "1", suite_full_name := "S", name := "C", status := TestStatus.RUNNING, elapsed := 0 },
   Message.sub { id_ := "1", name := "sub1", status := TestStatus.RUNNING, elapsed := 1 },
   Message.sub { id_ := "1", name := "sub1", status := TestStatus.PASSED, elapsed := 3 },
   Message.result { id_ := "1", suite_full_name := "S", name := "C", status := TestStatus.PASSED, elapsed := 5 }]

/-- A case running event followed by a sub-test completion while no
sub-test was ever started for that case. -/
def c1_events : List Message :=
  [Message.result { id_ := "1", suite_full_name := "S", name := "C", status := TestStatus.RUNNING, elapsed := 0 },
   Message.sub { id_ := "1", name := "s1", status := TestStatus.PASSED, elapsed := 1 }]

/-- A single Failed case result message. -/
def c2_msg : TestResultMessage :=
  { id_ := "1", suite_full_name := "S", name := "C", status := TestStatus.FAILED,
    message := "boom", stacktrace := some "tb", elapsed := 1, time := "TS" }

/-- The run-completed message closing the single-failure run. -/
def c2_run_msg : TestRunMessage := { status := TestRunStatus.SUCCESS, elapsed := 1 }

/-- Feed the JUnit sink one Failed case (initializing its suite and case
first, as the aggregator protocol prescribes) and close the run. -/
def c2_state : Except LisaErr JUnitState :=
  match junit_add_test_case_result c2_msg "S" "S" 1 (junit_set_test_case_info c2_msg {}) with
  | Except.error e => Except.error e
  | Except.ok s => Except.ok (junit_test_run_completed c2_run_msg s)

/-- A case running message for the JUnit pipeline. -/
def c3_msg : TestResultMessage :=
  { id_ := "1", suite_full_name := "S", name := "C",
    status := TestStatus.RUNNING, elapsed := 0 }

/-- The aggregator state after the spec's first end-to-end scenario. -/
def c4_final : AggState (List Result) :=
  { testcases_info := [("1",
      { suite_full_name := "S", name := "C", active_subtest_name := none,
        last_seen_timestamp := 3, subtest_total_elapsed := 2 })],
    sink := [Result.subResult
      { id_ := "1", name := "sub1", status := TestStatus.PASSED,
        message := "", stacktrace := none, elapsed := 3 } "S" "S.C" 2,
      Result.caseResult
      { id_ := "1", suite_full_name := "S", name := "C", status := TestStatus.PASSED,
        message := "", stacktrace := none, elapsed := 5, time := "" } "S" "S" 3] }

/-- The JUnit document after one Failed case and run completion. -/
def c2_final : JUnitState :=
  { testsuites_attribs := [("time", "1.000"), ("tests", "1"), ("failures", "0"), ("errors", "0")],
    testsuites_xml_info := [("S",
      { attribs := [("name", "S"), ("timestamp", "TS"), ("tests", "1"),
          ("failures", "0"), ("errors", "0")],
        test_count := 1, failed_count := 0 })],
    testcases_xml_info := [("S.C",
      { attribs := [("name", "C"), ("classname", "S"), ("time", "1.000")],
        children := [JChild.leaf (JLeaf.failure "boom" (some "tb"))] })] }

/-- A case record with sub-test `sub1` active since elapsed 2.0. -/
def infoActive : TestCaseRuntimeInfo :=
  { suite_full_name := "S", name := "C", active_subtest_name := some "sub1",
    last_seen_timestamp := 2, subtest_total_elapsed := 0 }

/-- An aggregator state holding one case (id "1") with `sub1` active. -/
def stActive : AggState (List Result) :=
  { testcases_info := [("1", infoActive)], sink := [] }

/-- A sub-test completion naming a sub-test other than the active one. -/
def mSubMismatch : SubTestMessage :=
  { id_ := "1", name := "other", status := TestStatus.PASSED, elapsed := 3 }

/-- A new sub-test running event arriving while `sub1` is still active. -/
def mSubRun : SubTestMessage :=
  { id_ := "1", name := "sub2", status := TestStatus.RUNNING, elapsed := 3 }

/-- The case fails at elapsed 4.0 while `sub1` is still active. -/
def mFail : TestResultMessage :=
  { id_ := "1", suite_full_name := "S", name := "C", status := TestStatus.FAILED,
    message := "err", stacktrace := some "tb", elapsed := 4 }

/-- The case running event opening the well-formed single-case stream. -/
def c0_msg : TestResultMessage :=
  { id_ := "1", suite_full_name := "S", name := "C",
    status := TestStatus.RUNNING, elapsed := 0 }

/-- The case completion closing the well-formed single-case stream. -/
def cF_msg : TestResultMessage :=
  { id_ := "1", suite_full_name := "S", name := "C",
    status := TestStatus.PASSED, elapsed := 5 }

/-- The sub-test events of the well-formed single-case stream. -/
def c7_subs : List SubTestMessage :=
  [{ id_ := "1", name := "sub1", status := TestStatus.RUNNING, elapsed := 1 },
   { id_ := "1", name := "sub1", status := TestStatus.PASSED, elapsed := 3 }]

/-- A sub-test event whose id has no case record. -/
def mOrphan : SubTestMessage :=
  { id_ := "9", name := "s", status := TestStatus.RUNNING, elapsed := 1 }

/-- A collector state with one case holding a recorded sub-test and one
case with none. -/
def scW : SCState :=
  { test_cases := [("S.C", [("s1", "PASSED")]), ("S.D", [])] }

/-- A Failed sub-test result for the collector. -/
def mSub9 : SubTestMessage :=
  { id_ := "1", name := "s1", status := TestStatus.FAILED, elapsed := 1 }

/-- The explicit completion of `sub1` at elapsed 3.0. -/
def mSubDone : SubTestMessage :=
  { id_ := "1", name := "sub1", status := TestStatus.PASSED, elapsed := 3 }

/-- The state after `mSubDone` is processed from `stActive`. -/
def c7w_st : AggState (List Result) :=
  { testcases_info := [("1",
      { suite_full_name := "S", name := "C", active_subtest_name := none,
        last_seen_timestamp := 3, subtest_total_elapsed := 1 })],
    sink := [Result.subResult mSubDone "S" "S.C" 1] }

/-! ## Helper lemmas -/

theorem dictGet_dictSet_self {α : Type u} (d : List (String × α)) (k : String) (v : α) :
    dictGet (dictSet d k v) k = some v := by
  induction d with
  | nil => simp [dictGet, dictSet]
  | cons hd tl ih =>
      obtain ⟨a, b⟩ := hd
      by_cases h : a = k <;> simp [dictGet, dictSet, h, ih]

theorem dictSet_dictSet {α : Type u} (d : List (String × α)) (k : String) (v w : α) :
    dictSet (dictSet d k v) k w = dictSet d k w := by
  induction d with
  | nil => simp [dictSet]
  | cons hd tl ih =>
      obtain ⟨a, b⟩ := hd
      by_cases h : a = k <;> simp [dictSet, h, ih]

theorem mem_keys_dictSet {α : Type u} (d : List (String × α)) (k : String) (v : α)
    (x : String) :
    x ∈ (dictSet d k v).map Prod.fst ↔ x ∈ d.map Prod.fst ∨ x = k := by
  induction d with
  | nil => simp [dictSet]
  | cons hd tl ih =>
      obtain ⟨a, b⟩ := hd
      by_cases h : a = k
      · subst h
        simp [dictSet]
        tauto
      · simp [dictSet, h, ih]
        tauto

theorem nodup_keys_dictSet {α : Type u} (d : List (String × α)) (k : String) (v : α)
    (h : (d.map Prod.fst).Nodup) : ((dictSet d k v).map Prod.fst).Nodup := by
  induction d with
  | nil => simp [dictSet]
  | cons hd tl ih =>
      obtain ⟨a, b⟩ := hd
      simp only [List.map_cons, List.nodup_cons] at h
      by_cases hk : a = k
      · subst hk
        simpa [dictSet] using h
      · simp only [dictSet, hk, if_false, List.map_cons, List.nodup_cons]
        refine ⟨?_, ih h.2⟩
        rw [mem_keys_dictSet]
        rintro (hm | hm)
        · exact h.1 hm
        · exact hk hm

theorem sumSubElapsed_append_sub (l : List Result) (m : SubTestMessage)
    (s f : String) (e : ℚ) :
    sumSubElapsed (l ++ [Result.subResult m s f e]) = sumSubElapsed l + e := by
  induction l with
  | nil => simp [sumSubElapsed]
  | cons hd tl ih =>
      cases hd <;> simp [sumSubElapsed, ih] <;> ring

theorem sumSubElapsed_append_case (l : List Result) (m : TestResultMessage)
    (s c : String) (e : ℚ) :
    sumSubElapsed (l ++ [Result.caseResult m s c e]) = sumSubElapsed l := by
  induction l with
  | nil => simp [sumSubElapsed]
  | cons hd tl ih =>
      cases hd <;> simp [sumSubElapsed, ih]

theorem caseResultsNonneg_append_sub {l : List Result} (h : caseResultsNonneg l)
    (m : SubTestMessage) (s f : String) (e : ℚ) :
    caseResultsNonneg (l ++ [Result.subResult m s f e]) := by
  intro m' s' c' e' hm
  rcases List.mem_append.mp hm with hm | hm
  · exact h m' s' c' e' hm
  · simp at hm

theorem caseResultsNonneg_append_case {l : List Result} (h : caseResultsNonneg l)
    (m : TestResultMessage) (s c : String) {e : ℚ} (he : 0 ≤ e) :
    caseResultsNonneg (l ++ [Result.caseResult m s c e]) := by
  intro m' s' c' e' hm
  rcases List.mem_append.mp hm with hm | hm
  · exact h m' s' c' e' hm
  · simp at hm
    obtain ⟨_, _, _, he'⟩ := hm
    subst he'
    exact he

/-! ## Characterisation of the aggregator's handlers over the recording sink -/

theorem resultsSink_init (m : TestResultMessage) (s : List Result) :
    resultsSink.init_test_case_info m s = Except.ok s := rfl

theorem resultsSink_add_case (m : TestResultMessage) (suite cls : String) (e : ℚ)
    (s : List Result) :
    resultsSink.add_test_case_result m suite cls e s =
      Except.ok (s ++ [Result.caseResult m suite cls e]) := rfl

theorem resultsSink_add_sub (m : SubTestMessage) (suite full : String) (e : ℚ)
    (s : List Result) :
    resultsSink.add_subtest_case_result m suite full e s =
      Except.ok (s ++ [Result.subResult m suite full e]) := rfl

theorem sub_completed_none (st : AggState (List Result)) (m : SubTestMessage)
    (info : TestCaseRuntimeInfo)
    (h : dictGet st.testcases_info m.id_ = some info)
    (ha : info.active_subtest_name = none) :
    sub_test_case_completed resultsSink m st = Except.ok
      { testcases_info := dictSet st.testcases_info m.id_
          { info with
              subtest_total_elapsed :=
                info.subtest_total_elapsed + (m.elapsed - info.last_seen_timestamp),
              last_seen_timestamp := m.elapsed }
        sink := st.sink ++ [Result.subResult m info.suite_full_name
          (info.suite_full_name ++ "." ++ info.name)
          (m.elapsed - info.last_seen_timestamp)] } := by
  simp [sub_test_case_completed, h, ha, sub_test_case_completed_core, resultsSink]

theorem sub_completed_match (st : AggState (List Result)) (m : SubTestMessage)
    (info : TestCaseRuntimeInfo) (a : String)
    (h : dictGet st.testcases_info m.id_ = some info)
    (ha : info.active_subtest_name = some a)
    (hn : a = m.name) :
    sub_test_case_completed resultsSink m st = Except.ok
      { testcases_info := dictSet st.testcases_info m.id_
          { info with
              active_subtest_name := none,
              subtest_total_elapsed :=
                info.subtest_total_elapsed + (m.elapsed - info.last_seen_timestamp),
              last_seen_timestamp := m.elapsed }
        sink := st.sink ++ [Result.subResult m info.suite_full_name
          (info.suite_full_name ++ "." ++ info.name)
          (m.elapsed - info.last_seen_timestamp)] } := by
  simp [sub_test_case_completed, h, ha, hn, sub_test_case_completed_core, resultsSink]

theorem sub_completed_mismatch {σ : Type} (sink : Sink σ) (st : AggState σ)
    (m : SubTestMessage) (info : TestCaseRuntimeInfo) (a : String)
    (h : dictGet st.testcases_info m.id_ = some info)
    (ha : info.active_subtest_name = some a)
    (hn : a ≠ m.name) :
    sub_test_case_completed sink m st = Except.error (LisaErr.lisaException
      "Completed sub-test is not the same as the active sub-test.") := by
  simp [sub_test_case_completed, h, ha, hn]

theorem emit_case_result_eq (st : AggState (List Result)) (m : TestResultMessage)
    (info : TestCaseRuntimeInfo)
    (h : dictGet st.testcases_info m.id_ = some info) :
    emit_case_result resultsSink m st = Except.ok
      { st with sink := st.sink ++ [Result.caseResult m m.suite_full_name
          m.suite_full_name (m.elapsed - info.subtest_total_elapsed)] } := by
  simp [emit_case_result, h, resultsSink]

theorem mark_subtest_running_eq {σ : Type} (st : AggState σ) (m : SubTestMessage)
    (info : TestCaseRuntimeInfo)
    (h : dictGet st.testcases_info m.id_ = some info) :
    mark_subtest_running m st =
      { testcases_info := dictSet st.testcases_info m.id_
          { info with
              active_subtest_name := some m.name,
              last_seen_timestamp := m.elapsed }
        sink := st.sink } := by
  simp [mark_subtest_running, h]

theorem test_case_running_eq (st : AggState (List Result)) (m : TestResultMessage) :
    test_case_running resultsSink m st =
      Except.ok (set_test_case_runtime_info m
        { testcases_info := st.testcases_info, sink := st.sink }) := rfl

theorem set_runtime_get {σ : Type} (st : AggState σ) (m : TestResultMessage) :
    dictGet (set_test_case_runtime_info m st).testcases_info m.id_ =
      some { suite_full_name := m.suite_full_name, name := m.name,
             active_subtest_name := none, last_seen_timestamp := m.elapsed,
             subtest_total_elapsed := 0 } := by
  simp [set_test_case_runtime_info, dictGet_dictSet_self]

theorem case_completed_no_active (st : AggState (List Result))
    (m : TestResultMessage) (info : TestCaseRuntimeInfo)
    (h : dictGet st.testcases_info m.id_ = some info)
    (ha : info.active_subtest_name = none) :
    test_case_completed resultsSink m st = Except.ok
      { testcases_info := st.testcases_info
        sink := st.sink ++ [Result.caseResult m m.suite_full_name m.suite_full_name
          (m.elapsed - info.subtest_total_elapsed)] } := by
  simp only [test_case_completed, resultsSink_init, h, Option.isNone_some,
    Bool.false_eq_true, if_false, ha]
  simp [emit_case_result, resultsSink_add_case, h]

/-- `_sub_test_case_running` with a previously active sub-test: implicit
PASSED closure, then the new sub-test becomes active (shared
characterisation). -/
theorem sub_running_active_char (st : AggState (List Result))
    (m : SubTestMessage) (info : TestCaseRuntimeInfo) (prev : String)
    (h : dictGet st.testcases_info m.id_ = some info)
    (ha : info.active_subtest_name = some prev) :
    sub_test_case_running resultsSink m st = Except.ok
      { testcases_info := dictSet st.testcases_info m.id_
          { info with
              active_subtest_name := some m.name,
              subtest_total_elapsed :=
                info.subtest_total_elapsed + (m.elapsed - info.last_seen_timestamp),
              last_seen_timestamp := m.elapsed }
        sink := st.sink ++ [Result.subResult
          { id_ := m.id_, name := prev, status := TestStatus.PASSED, elapsed := m.elapsed }
          info.suite_full_name (info.suite_full_name ++ "." ++ info.name)
          (m.elapsed - info.last_seen_timestamp)] } := by
  have hm := sub_completed_match st
    { id_ := m.id_, name := prev, status := TestStatus.PASSED, elapsed := m.elapsed }
    info prev h ha rfl
  simp only [sub_test_case_running, h, ha]
  rw [hm]
  simp [mark_subtest_running, dictGet_dictSet_self, dictSet_dictSet]

/-- `_test_case_completed` with a still-active sub-test: inherited implicit
closure then the case result (shared characterisation). -/
theorem case_completed_active_char (st : AggState (List Result))
    (m : TestResultMessage) (info : TestCaseRuntimeInfo) (a : String)
    (h : dictGet st.testcases_info m.id_ = some info)
    (ha : info.active_subtest_name = some a) :
    test_case_completed resultsSink m st = Except.ok
      { testcases_info := dictSet st.testcases_info m.id_
          { info with
              active_subtest_name := none,
              subtest_total_elapsed :=
                info.subtest_total_elapsed + (m.elapsed - info.last_seen_timestamp),
              last_seen_timestamp := m.elapsed }
        sink := st.sink ++
          [Result.subResult
            { id_ := m.id_, name := a, status := m.status, message := m.message,
              stacktrace := m.stacktrace, elapsed := m.elapsed }
            info.suite_full_name (info.suite_full_name ++ "." ++ info.name)
            (m.elapsed - info.last_seen_timestamp),
           Result.caseResult m m.suite_full_name m.suite_full_name
            (m.elapsed -
              (info.subtest_total_elapsed + (m.elapsed - info.last_seen_timestamp)))] } := by
  have hm := sub_completed_match
    { testcases_info := st.testcases_info, sink := st.sink }
    { id_ := m.id_, name := a, status := m.status, message := m.message,
      stacktrace := m.stacktrace, elapsed := m.elapsed }
    info a h ha rfl
  simp only [test_case_completed, resultsSink_init, h, Option.isNone_some,
    Bool.false_eq_true, if_false, ha]
  rw [hm]
  simp [emit_case_result, resultsSink_add_case, dictGet_dictSet_self, dictSet_dictSet]

/-- Full evaluation of the spec's first end-to-end scenario. -/
theorem c4_run : processEvents resultsSink c4_events emptyAgg = Except.ok c4_final := by
  simp [processEvents, received_message, received_test_result, received_sub_test,
    test_case_running, test_case_completed, set_test_case_runtime_info, resultsSink,
    sub_test_case_running, sub_test_case_completed, sub_test_case_completed_core,
    mark_subtest_running, emit_case_result, dictGet, dictSet,
    c4_events, emptyAgg, c4_final, TestStatus.is_completed] <;> norm_num

/-! ## Claim C1 -/

/-- C1 counterexample: a sub-test completion processed while the case has
NO active sub-test does not raise — it is accepted and a `SubResult` is
emitted.  This falsifies the claim that the handler fails with a
ConsistencyError whenever there is no active sub-test. -/
theorem sub_completed_no_active_accepted :
    processEvents resultsSink c1_events emptyAgg = Except.ok
      { testcases_info := [("1",
          { suite_full_name := "S", name := "C", active_subtest_name := none,
            last_seen_timestamp := 1, subtest_total_elapsed := 1 })],
        sink := [Result.subResult
          { id_ := "1", name := "s1", status := TestStatus.PASSED,
            message := "", stacktrace := none, elapsed := 1 } "S" "S.C" 1] } := by
  simp [processEvents, received_message, received_test_result, received_sub_test,
    test_case_running, test_case_completed, set_test_case_runtime_info, resultsSink,
    sub_test_case_running, sub_test_case_completed, sub_test_case_completed_core,
    mark_subtest_running, emit_case_result, dictGet, dictSet,
    c1_events, emptyAgg, TestStatus.is_completed] <;> norm_num

/-- C1 (amended): `_sub_test_case_completed` fails with the
ConsistencyError `LisaException` exactly when an active sub-test exists
whose name differs from the event's name; when no sub-test is active the
completion is accepted and a `SubResult` is emitted. -/
theorem sub_completed_consistency_check (st : AggState (List Result))
    (m : SubTestMessage) (info : TestCaseRuntimeInfo)
    (h : dictGet st.testcases_info m.id_ = some info) :
    (∀ a, info.active_subtest_name = some a → a ≠ m.name →
      sub_test_case_completed resultsSink m st = Except.error (LisaErr.lisaException
        "Completed sub-test is not the same as the active sub-test.")) ∧
    (info.active_subtest_name = none →
      ∃ st', sub_test_case_completed resultsSink m st = Except.ok st' ∧
        st'.sink = st.sink ++ [Result.subResult m info.suite_full_name
          (info.suite_full_name ++ "." ++ info.name)
          (m.elapsed - info.last_seen_timestamp)]) :=
  ⟨fun a ha hn => sub_completed_mismatch resultsSink st m info a h ha hn,
   fun ha => ⟨_, sub_completed_none st m info h ha, rfl⟩⟩

/-- Witness for C1's amended theorem at concrete inputs: a mismatching
completion raises the ConsistencyError. -/
theorem sub_completed_consistency_check_witness :
    sub_test_case_completed resultsSink mSubMismatch stActive =
      Except.error (LisaErr.lisaException
        "Completed sub-test is not the same as the active sub-test.") :=
  (sub_completed_consistency_check stActive mSubMismatch infoActive (by decide)).1
    "sub1" (by decide) (by decide)

/-! ## Claim C2 -/

/-- C2: the JUnit sink's `failed_count` is never incremented, so after a
run with exactly one Failed case the document records that Failed case (a
`<failure>` child exists) and `tests="1"`, yet both the root's and the
suite's `failures` attribute read "0" instead of "1". -/
theorem junit_failures_attribute_stays_zero :
    c2_state = Except.ok c2_final ∧
    failedCaseCount c2_final = 1 ∧
    dictGet c2_final.testsuites_attribs "tests" = some "1" ∧
    dictGet c2_final.testsuites_attribs "failures" = some "0" ∧
    (dictGet c2_final.testsuites_xml_info "S").map
      (fun tsi => dictGet tsi.attribs "failures") = some (some "0") := by
  refine ⟨?_, by decide, by decide, by decide, by decide⟩
  simp [c2_state, junit_set_test_case_info, create_or_get_testsuite_info,
    junit_add_test_case_result, junit_test_run_completed, add_failed_or_skipped,
    get_elapsed_str, padThousandths, dictGet, dictSet,
    c2_msg, c2_run_msg, c2_final] <;> decide

/-! ## Claim C3 -/

/-- C3: processing any TestResultMessage through the JUnit notifier raises
`NotImplementedError`: the aggregator calls the abstract hook
`_init_test_case_info`, which `JUnit` never overrides (it defines
`_set_test_case_info` instead), so the initialization hook never runs and
`_add_test_case_result` is never reached. -/
theorem junit_init_hook_not_implemented (m : TestResultMessage)
    (st : AggState JUnitState)
    (h : m.status = TestStatus.RUNNING ∨ m.status = TestStatus.SKIPPED ∨
         m.status.is_completed = true) :
    received_test_result junitSink m st = Except.error LisaErr.notImplementedErr := by
  by_cases h2 : m.status = TestStatus.RUNNING ∨ m.status = TestStatus.SKIPPED
  · simp [received_test_result, h2, test_case_running, junitSink]
  · have h3 : m.status.is_completed = true := by
      rcases h with h | h | h
      · exact absurd (Or.inl h) h2
      · exact absurd (Or.inr h) h2
      · exact h
    simp [received_test_result, h2, h3, test_case_completed, junitSink]

/-- Witness for C3 at a concrete input: a Running case event fed to the
JUnit notifier errors with NotImplementedError. -/
theorem junit_init_hook_not_implemented_witness :
    received_test_result junitSink c3_msg
      { testcases_info := [], sink := {} } = Except.error LisaErr.notImplementedErr :=
  junit_init_hook_not_implemented c3_msg { testcases_info := [], sink := {} }
    (Or.inl (by decide))

/-! ## Claim C4 -/

/-- C4: the spec's first end-to-end scenario.  Processing
CaseEvent(Running, 0.0); SubEvent(sub1, Running, 1.0);
SubEvent(sub1, Passed, 3.0); CaseEvent(Passed, 5.0) emits exactly
SubResult(sub1, elapsed = 2.0) followed by CaseResult(C, elapsed = 3.0). -/
theorem end_to_end_scenario_passes :
    processEvents resultsSink c4_events emptyAgg = Except.ok c4_final := c4_run

/-! ## Claim C10 -/

/-- C10: both sub-test handlers begin with an unguarded dictionary lookup,
so any sub-test event whose id has no case record fails with a KeyError
(for any concrete sink), not with a ConsistencyError and not by creating
the record lazily. -/
theorem sub_handlers_key_error {σ : Type} (sink : Sink σ) (m : SubTestMessage)
    (st : AggState σ)
    (h : dictGet st.testcases_info m.id_ = none) :
    sub_test_case_running sink m st = Except.error (LisaErr.keyErr m.id_) ∧
    sub_test_case_completed sink m st = Except.error (LisaErr.keyErr m.id_) := by
  constructor <;> simp [sub_test_case_running, sub_test_case_completed, h]

/-- Witness for C10 at a concrete input: a sub-test event for an id with
no case record. -/
theorem sub_handlers_key_error_witness :
    sub_test_case_running resultsSink mOrphan emptyAgg =
      Except.error (LisaErr.keyErr "9") ∧
    sub_test_case_completed resultsSink mOrphan emptyAgg =
      Except.error (LisaErr.keyErr "9") :=
  sub_handlers_key_error resultsSink mOrphan emptyAgg (by decide)

/-! ## Claim C6 -/

/-- C6: a sub-test Running event arriving while another sub-test is active
first synthesizes and processes a PASSED completion for the previous
sub-test at the new event's elapsed (emitting its `SubResult` and folding
its slice into `subtest_total_elapsed`), and then marks the new sub-test
active with `last_seen_timestamp := e.elapsed`. -/
theorem sub_running_implicit_close (st : AggState (List Result))
    (m : SubTestMessage) (info : TestCaseRuntimeInfo) (prev : String)
    (h : dictGet st.testcases_info m.id_ = some info)
    (ha : info.active_subtest_name = some prev) :
    sub_test_case_running resultsSink m st = Except.ok
      { testcases_info := dictSet st.testcases_info m.id_
          { info with
              active_subtest_name := some m.name,
              subtest_total_elapsed :=
                info.subtest_total_elapsed + (m.elapsed - info.last_seen_timestamp),
              last_seen_timestamp := m.elapsed }
        sink := st.sink ++ [Result.subResult
          { id_ := m.id_, name := prev, status := TestStatus.PASSED, elapsed := m.elapsed }
          info.suite_full_name (info.suite_full_name ++ "." ++ info.name)
          (m.elapsed - info.last_seen_timestamp)] } :=
  sub_running_active_char st m info prev h ha

/-- Witness for C6 at concrete inputs: `sub2` starts at elapsed 3.0 while
`sub1` has been active since 2.0. -/
theorem sub_running_implicit_close_witness :
    sub_test_case_running resultsSink mSubRun stActive = Except.ok
      { testcases_info := [("1",
          { suite_full_name := "S", name := "C", active_subtest_name := some "sub2",
            last_seen_timestamp := 3, subtest_total_elapsed := 0 + (3 - 2) })],
        sink := [Result.subResult
          { id_ := "1", name := "sub1", status := TestStatus.PASSED, elapsed := 3 }
          "S" "S.C" (3 - 2)] } := by
  have := sub_running_implicit_close stActive mSubRun infoActive "sub1" (by rfl) (by rfl)
  simpa [stActive, infoActive, mSubRun, dictSet] using this

/-! ## Claim C5 -/

/-- C5: a case-completion event processed while a sub-test is still active
first synthesizes and processes a completion for that sub-test inheriting
the case's status, message, stacktrace and elapsed, and then emits the
`CaseResult`; the sub-test is charged `e.elapsed - last_seen_timestamp`
and the case `e.elapsed` minus the updated `subtest_total_elapsed`. -/
theorem case_completed_inherits_into_subtest (st : AggState (List Result))
    (m : TestResultMessage) (info : TestCaseRuntimeInfo) (a : String)
    (h : dictGet st.testcases_info m.id_ = some info)
    (ha : info.active_subtest_name = some a) :
    test_case_completed resultsSink m st = Except.ok
      { testcases_info := dictSet st.testcases_info m.id_
          { info with
              active_subtest_name := none,
              subtest_total_elapsed :=
                info.subtest_total_elapsed + (m.elapsed - info.last_seen_timestamp),
              last_seen_timestamp := m.elapsed }
        sink := st.sink ++
          [Result.subResult
            { id_ := m.id_, name := a, status := m.status, message := m.message,
              stacktrace := m.stacktrace, elapsed := m.elapsed }
            info.suite_full_name (info.suite_full_name ++ "." ++ info.name)
            (m.elapsed - info.last_seen_timestamp),
           Result.caseResult m m.suite_full_name m.suite_full_name
            (m.elapsed -
              (info.subtest_total_elapsed + (m.elapsed - info.last_seen_timestamp)))] } :=
  case_completed_active_char st m info a h ha

/-- Witness for C5 at the spec's concrete scenario: the case fails at
elapsed 4.0 while `sub1` has been running since 2.0 — the aggregator emits
SubResult(sub1, Failed, 2.0) then CaseResult(Failed, 2.0). -/
theorem case_completed_inherits_into_subtest_witness :
    test_case_completed resultsSink mFail stActive = Except.ok
      { testcases_info := [("1",
          { suite_full_name := "S", name := "C", active_subtest_name := none,
            last_seen_timestamp := 4, subtest_total_elapsed := 0 + (4 - 2) })],
        sink := [Result.subResult
          { id_ := "1", name := "sub1", status := TestStatus.FAILED, message := "err",
            stacktrace := some "tb", elapsed := 4 } "S" "S.C" (4 - 2),
          Result.caseResult mFail "S" "S" (4 - (0 + (4 - 2)))] } := by
  have := case_completed_inherits_into_subtest stActive mFail infoActive "sub1"
    (by rfl) (by rfl)
  simpa [stActive, infoActive, mFail, dictSet] using this

/-! ## Claim C8: key uniqueness machinery -/

theorem keysNodup_set_runtime {σ : Type} (m : TestResultMessage) (st : AggState σ)
    (h : keysNodup st.testcases_info) :
    keysNodup (set_test_case_runtime_info m st).testcases_info := by
  simp only [set_test_case_runtime_info, keysNodup] at *
  exact nodup_keys_dictSet _ _ _ h

theorem keysNodup_core {σ : Type} (sink : Sink σ) (m : SubTestMessage)
    (info : TestCaseRuntimeInfo) (st st' : AggState σ)
    (hok : sub_test_case_completed_core sink m info st = Except.ok st')
    (h : keysNodup st.testcases_info) : keysNodup st'.testcases_info := by
  simp only [sub_test_case_completed_core] at hok
  split at hok
  · cases hok
  · cases hok
    simp only [keysNodup] at *
    exact nodup_keys_dictSet _ _ _ h

theorem keysNodup_sub_completed {σ : Type} (sink : Sink σ) (m : SubTestMessage)
    (st st' : AggState σ)
    (hok : sub_test_case_completed sink m st = Except.ok st')
    (h : keysNodup st.testcases_info) : keysNodup st'.testcases_info := by
  simp only [sub_test_case_completed] at hok
  split at hok
  · cases hok
  · split at hok
    · split at hok
      · exact keysNodup_core _ _ _ _ _ hok h
      · cases hok
    · exact keysNodup_core _ _ _ _ _ hok h

theorem keysNodup_mark {σ : Type} (m : SubTestMessage) (st : AggState σ)
    (h : keysNodup st.testcases_info) :
    keysNodup (mark_subtest_running m st).testcases_info := by
  simp only [mark_subtest_running]
  split
  · exact h
  · simp only [keysNodup] at *
    exact nodup_keys_dictSet _ _ _ h

theorem keysNodup_sub_running {σ : Type} (sink : Sink σ) (m : SubTestMessage)
    (st st' : AggState σ)
    (hok : sub_test_case_running sink m st = Except.ok st')
    (h : keysNodup st.testcases_info) : keysNodup st'.testcases_info := by
  simp only [sub_test_case_running] at hok
  split at hok
  · cases hok
  · split at hok
    · split at hok
      · cases hok
      · rename_i st1 heq
        cases hok
        exact keysNodup_mark _ _ (keysNodup_sub_completed _ _ _ _ heq h)
    · cases hok
      exact keysNodup_mark _ _ h

theorem keysNodup_case_running {σ : Type} (sink : Sink σ) (m : TestResultMessage)
    (st st' : AggState σ)
    (hok : test_case_running sink m st = Except.ok st')
    (h : keysNodup st.testcases_info) : keysNodup st'.testcases_info := by
  simp only [test_case_running] at hok
  split at hok
  · cases hok
  · cases hok
    exact keysNodup_set_runtime _ _ h

theorem keysNodup_emit {σ : Type} (sink : Sink σ) (m : TestResultMessage)
    (st st' : AggState σ)
    (hok : emit_case_result sink m st = Except.ok st')
    (h : keysNodup st.testcases_info) : keysNodup st'.testcases_info := by
  simp only [emit_case_result] at hok
  split at hok
  · cases hok
  · split at hok
    · cases hok
    · cases hok
      exact h

theorem keysNodup_case_completed {σ : Type} (sink : Sink σ) (m : TestResultMessage)
    (st st' : AggState σ)
    (hok : test_case_completed sink m st = Except.ok st')
    (h : keysNodup st.testcases_info) : keysNodup st'.testcases_info := by
  simp only [test_case_completed] at hok
  split at hok
  · cases hok
  · rename_i s hs
    have h1 : keysNodup (if (dictGet ({ st with sink := s } : AggState σ).testcases_info m.id_).isNone
        then set_test_case_runtime_info m { st with sink := s }
        else { st with sink := s }).testcases_info := by
      split
      · exact keysNodup_set_runtime _ _ h
      · exact h
    split at hok
    · cases hok
    · rename_i info hinfo
      split at hok
      · split at hok
        · cases hok
        · rename_i st1 heq
          exact keysNodup_emit _ _ _ _ hok (keysNodup_sub_completed _ _ _ _ heq h1)
      · exact keysNodup_emit _ _ _ _ hok h1

theorem keysNodup_received {σ : Type} (sink : Sink σ) (e : Message)
    (st st' : AggState σ)
    (hok : received_message sink e st = Except.ok st')
    (h : keysNodup st.testcases_info) : keysNodup st'.testcases_info := by
  cases e with
  | run m =>
      simp only [received_message, received_test_run] at hok
      split at hok
      · split at hok
        · cases hok
        · cases hok
          exact h
      · split at hok
        · split at hok
          · cases hok
          · cases hok
            exact h
        · cases hok
          exact h
  | result m =>
      simp only [received_message, received_test_result] at hok
      split at hok
      · cases hok
      · rename_i st1 heq
        have h1 : keysNodup st1.testcases_info := by
          split at heq
          · exact keysNodup_case_running _ _ _ _ heq h
          · cases heq
            exact h
        split at hok
        · exact keysNodup_case_completed _ _ _ _ hok h1
        · cases hok
          exact h1
  | sub m =>
      simp only [received_message, received_sub_test] at hok
      split at hok
      · exact keysNodup_sub_running _ _ _ _ hok h
      · split at hok
        · exact keysNodup_sub_completed _ _ _ _ hok h
        · cases hok
          exact h

theorem keysNodup_processEvents {σ : Type} (sink : Sink σ) (events : List Message)
    (st st' : AggState σ)
    (hok : processEvents sink events st = Except.ok st')
    (h : keysNodup st.testcases_info) : keysNodup st'.testcases_info := by
  induction events generalizing st with
  | nil =>
      simp only [processEvents] at hok
      cases hok
      exact h
  | cons e rest ih =>
      simp only [processEvents] at hok
      split at hok
      · cases hok
      · rename_i st1 heq
        exact ih st1 hok (keysNodup_received _ _ _ _ heq h)

/-- C8: starting from any state whose per-case map has pairwise distinct
ids (in particular the empty map), processing any event sequence — which
may initialize the same id on both its running and its completing event —
leaves a map whose keys are still pairwise distinct: at most one
CaseRuntime record per id, for any sink. -/
theorem at_most_one_runtime_record_per_id {σ : Type} (sink : Sink σ)
    (events : List Message) (st0 st' : AggState σ)
    (h0 : keysNodup st0.testcases_info)
    (hok : processEvents sink events st0 = Except.ok st') :
    keysNodup st'.testcases_info :=
  keysNodup_processEvents sink events st0 st' hok h0

/-- Witness for C8 at concrete inputs: the end-to-end scenario (which
initializes id "1" on both its running and its completing event) leaves
exactly one record. -/
theorem at_most_one_runtime_record_per_id_witness :
    keysNodup c4_final.testcases_info :=
  at_most_one_runtime_record_per_id resultsSink c4_events emptyAgg c4_final
    (by simp [emptyAgg, keysNodup]) c4_run

/-! ## Claim C9 -/

theorem sc_foldl_filter (l : List (String × List (String × String)))
    (acc : List String) :
    l.foldl (fun acc kv =>
        if kv.2.length = 0 then acc
        else acc ++ [kv.1] ++ kv.2.map scSubLine) acc =
      acc ++ (l.filter fun kv => !kv.2.isEmpty).flatMap
        (fun kv => kv.1 :: kv.2.map scSubLine) := by
  induction l generalizing acc with
  | nil => simp
  | cons hd tl ih =>
      obtain ⟨name, subs⟩ := hd
      cases subs with
      | nil => simpa using ih acc
      | cons s ss =>
          simp only [List.foldl_cons, List.length_cons, List.isEmpty_cons,
            Bool.not_false, List.filter_cons_of_pos, List.flatMap_cons]
          rw [ih]
          simp

/-- C9: the Log/Console collector's `subtest_result` raises the
NotStartedError `LisaException` when the owning case full name is unknown;
otherwise it stores the label for the sub-test's name, overwriting any
previous label (a lookup after the write returns the new label, so the
latest report wins); and `finalize` prints the two header lines followed
by exactly the cases holding at least one recorded sub-test — each as its
full name and its sub-test lines — omitting empty cases entirely. -/
theorem collector_subtest_result_behaviour :
    (∀ (m : SubTestMessage) (suite full : String) (e : ℚ) (s : SCState),
      dictGet s.test_cases full = none →
      sc_add_subtest_case_result m suite full e s =
        Except.error (LisaErr.lisaException ("Test case " ++ full ++ " not started."))) ∧
    (∀ (m : SubTestMessage) (suite full : String) (e : ℚ) (s : SCState)
      (subs : List (String × String)),
      dictGet s.test_cases full = some subs →
      m.status.is_completed = true →
      ∃ s', sc_add_subtest_case_result m suite full e s = Except.ok s' ∧
        ∃ subs', dictGet s'.test_cases full = some subs' ∧
          dictGet subs' m.name = some (scLabel m.status)) ∧
    (∀ s : SCState, sc_finalize s =
      ["________________________________________", "SubTest Case Results"] ++
        (s.test_cases.filter fun kv => !kv.2.isEmpty).flatMap
          (fun kv => kv.1 :: kv.2.map scSubLine)) := by
  refine ⟨?_, ?_, ?_⟩
  · intro m suite full e s h
    simp [sc_add_subtest_case_result, h]
  · intro m suite full e s subs h hc
    cases hst : m.status
    · rw [hst] at hc
      simp [TestStatus.is_completed] at hc
    · rw [hst] at hc
      simp [TestStatus.is_completed] at hc
    · refine ⟨{ test_cases := dictSet s.test_cases full (dictSet subs m.name "PASSED") },
        ?_, dictSet subs m.name "PASSED", dictGet_dictSet_self _ _ _, ?_⟩
      · simp [sc_add_subtest_case_result, h, hst]
      · simp [hst, scLabel, dictGet_dictSet_self]
    · refine ⟨{ test_cases := dictSet s.test_cases full (dictSet subs m.name "FAILED") },
        ?_, dictSet subs m.name "FAILED", dictGet_dictSet_self _ _ _, ?_⟩
      · simp [sc_add_subtest_case_result, h, hst]
      · simp [hst, scLabel, dictGet_dictSet_self]
    · refine ⟨{ test_cases := dictSet s.test_cases full (dictSet subs m.name "SKIPPED") },
        ?_, dictSet subs m.name "SKIPPED", dictGet_dictSet_self _ _ _, ?_⟩
      · simp [sc_add_subtest_case_result, h, hst]
      · simp [hst, scLabel, dictGet_dictSet_self]
    · refine ⟨{ test_cases := dictSet s.test_cases full (dictSet subs m.name "SKIPPED") },
        ?_, dictSet subs m.name "SKIPPED", dictGet_dictSet_self _ _ _, ?_⟩
      · simp [sc_add_subtest_case_result, h, hst]
      · simp [hst, scLabel, dictGet_dictSet_self]
  · intro s
    simp only [sc_finalize]
    rw [sc_foldl_filter s.test_cases []]
    simp

/-- Witness for C9 at concrete inputs: an unknown case errors; a Failed
sub-test recorded under an already-used name overwrites the label; the
finalize lines print the non-empty case and omit the empty one. -/
theorem collector_subtest_result_behaviour_witness :
    (sc_add_subtest_case_result mSub9 "S" "S.X" 1 scW =
      Except.error (LisaErr.lisaException ("Test case " ++ "S.X" ++ " not started."))) ∧
    (∃ s', sc_add_subtest_case_result mSub9 "S" "S.C" 1 scW = Except.ok s' ∧
      ∃ subs', dictGet s'.test_cases "S.C" = some subs' ∧
        dictGet subs' "s1" = some (scLabel TestStatus.FAILED)) ∧
    sc_finalize scW =
      ["________________________________________", "SubTest Case Results",
       "S.C", "|--- s1:\tPASSED"] := by
  refine ⟨?_, ?_, ?_⟩
  · exact collector_subtest_result_behaviour.1 mSub9 "S" "S.X" 1 scW (by decide)
  · exact collector_subtest_result_behaviour.2.1 mSub9 "S" "S.C" 1 scW
      [("s1", "PASSED")] (by decide) (by decide)
  · exact (collector_subtest_result_behaviour.2.2 scW).trans (by decide)

/-! ## Claim C7: elapsed-time invariants -/

theorem sumSubElapsed_append (l l' : List Result) :
    sumSubElapsed (l ++ l') = sumSubElapsed l + sumSubElapsed l' := by
  induction l with
  | nil => simp [sumSubElapsed]
  | cons hd tl ih =>
      cases hd <;> simp [sumSubElapsed, ih] <;> ring

theorem caseResultsNonneg_append {l l' : List Result}
    (h : caseResultsNonneg l) (h' : caseResultsNonneg l') :
    caseResultsNonneg (l ++ l') := by
  intro m s c e hm
  rcases List.mem_append.mp hm with hm | hm
  · exact h m s c e hm
  · exact h' m s c e hm

theorem AggInv_mono {i : String} {t t' : ℚ} {st : AggState (List Result)}
    (htt : t ≤ t') (h : AggInv i t st) : AggInv i t' st := by
  obtain ⟨info, hget, h0, h1, h2, hsum, hnn⟩ := h
  exact ⟨info, hget, h0, h1, le_trans h2 htt, hsum, hnn⟩

theorem inv_sub_completed (i : String) (t : ℚ) (m : SubTestMessage)
    (st st' : AggState (List Result))
    (hid : m.id_ = i) (ht : t ≤ m.elapsed)
    (hinv : AggInv i t st)
    (hok : sub_test_case_completed resultsSink m st = Except.ok st') :
    AggInv i m.elapsed st' := by
  subst hid
  obtain ⟨info, hget, h0, h1, h2, hsum, hnn⟩ := hinv
  have hls : info.last_seen_timestamp ≤ m.elapsed := le_trans h2 ht
  cases hact : info.active_subtest_name with
  | none =>
      rw [sub_completed_none st m info hget hact] at hok
      cases hok
      refine ⟨_, dictGet_dictSet_self _ _ _, ?_, ?_, ?_, ?_, ?_⟩
      · simp only []
        linarith
      · simp only []
        linarith
      · simp only []
        linarith
      · simp only [sumSubElapsed_append, hsum, sumSubElapsed]
        ring
      · exact caseResultsNonneg_append_sub hnn _ _ _ _
  | some a =>
      by_cases hname : a = m.name
      · rw [sub_completed_match st m info a hget hact hname] at hok
        cases hok
        refine ⟨_, dictGet_dictSet_self _ _ _, ?_, ?_, ?_, ?_, ?_⟩
        · simp only []
          linarith
        · simp only []
          linarith
        · simp only []
          linarith
        · simp only [sumSubElapsed_append, hsum, sumSubElapsed]
          ring
        · exact caseResultsNonneg_append_sub hnn _ _ _ _
      · rw [sub_completed_mismatch resultsSink st m info a hget hact hname] at hok
        cases hok

theorem inv_sub_running (i : String) (t : ℚ) (m : SubTestMessage)
    (st st' : AggState (List Result))
    (hid : m.id_ = i) (ht : t ≤ m.elapsed)
    (hinv : AggInv i t st)
    (hok : sub_test_case_running resultsSink m st = Except.ok st') :
    AggInv i m.elapsed st' := by
  subst hid
  obtain ⟨info, hget, h0, h1, h2, hsum, hnn⟩ := hinv
  have hls : info.last_seen_timestamp ≤ m.elapsed := le_trans h2 ht
  cases hact : info.active_subtest_name with
  | none =>
      simp only [sub_test_case_running, hget, hact] at hok
      cases hok
      rw [mark_subtest_running_eq st m info hget]
      refine ⟨_, dictGet_dictSet_self _ _ _, ?_, ?_, ?_, ?_, ?_⟩
      · simp only []
        linarith
      · simp only []
        linarith
      · simp only []
        linarith
      · simpa using hsum
      · exact hnn
  | some prev =>
      rw [sub_running_active_char st m info prev hget hact] at hok
      cases hok
      refine ⟨_, dictGet_dictSet_self _ _ _, ?_, ?_, ?_, ?_, ?_⟩
      · simp only []
        linarith
      · simp only []
        linarith
      · simp only []
        linarith
      · simp only [sumSubElapsed_append, hsum, sumSubElapsed]
        ring
      · exact caseResultsNonneg_append_sub hnn _ _ _ _

theorem inv_received_sub (i : String) (t : ℚ) (m : SubTestMessage)
    (st st' : AggState (List Result))
    (hid : m.id_ = i) (ht : t ≤ m.elapsed)
    (hinv : AggInv i t st)
    (hok : received_sub_test resultsSink m st = Except.ok st') :
    AggInv i m.elapsed st' := by
  simp only [received_sub_test] at hok
  split at hok
  · exact inv_sub_running i t m st st' hid ht hinv hok
  · split at hok
    · exact inv_sub_completed i t m st st' hid ht hinv hok
    · cases hok
      exact AggInv_mono ht hinv

theorem inv_process_subs (i : String) (subs : List SubTestMessage) (T t : ℚ)
    (st st' : AggState (List Result))
    (hids : (subs.all fun m => m.id_ == i) = true)
    (hmono : nondecFrom t (subs.map (fun m => m.elapsed) ++ [T]) = true)
    (hinv : AggInv i t st)
    (hok : processEvents resultsSink (subs.map Message.sub) st = Except.ok st') :
    AggInv i T st' := by
  induction subs generalizing t st with
  | nil =>
      simp only [List.map_nil, processEvents] at hok
      cases hok
      have htT : t ≤ T := by
        by_cases h : t ≤ T
        · exact h
        · simp [nondecFrom, h] at hmono
      exact AggInv_mono htT hinv
  | cons m rest ih =>
      simp only [List.map_cons, processEvents] at hok
      split at hok
      · cases hok
      · rename_i st1 heq
        simp only [List.all_cons, Bool.and_eq_true, beq_iff_eq] at hids
        have hte : t ≤ m.elapsed := by
          by_cases h : t ≤ m.elapsed
          · exact h
          · simp only [List.map_cons, List.cons_append, nondecFrom, h, if_false] at hmono
            exact absurd hmono Bool.false_ne_true
        have hmono' : nondecFrom m.elapsed (rest.map (fun m => m.elapsed) ++ [T]) = true := by
          simpa only [List.map_cons, List.cons_append, nondecFrom, hte, if_true] using hmono
        exact ih m.elapsed st1 hids.2 hmono'
          (inv_received_sub i t m st st1 hids.1 hte hinv heq) hok

theorem processEvents_append {σ : Type} (sink : Sink σ) (l1 l2 : List Message)
    (st : AggState σ) :
    processEvents sink (l1 ++ l2) st =
      match processEvents sink l1 st with
      | Except.error e => Except.error e
      | Except.ok st1 => processEvents sink l2 st1 := by
  induction l1 generalizing st with
  | nil => simp [processEvents]
  | cons e rest ih =>
      simp only [List.cons_append, processEvents]
      split
      · rfl
      · exact ih _

theorem final_case_inv (m : TestResultMessage) (st st' : AggState (List Result))
    (hinv : AggInv m.id_ m.elapsed st)
    (hok : received_test_result resultsSink m st = Except.ok st') :
    sumSubElapsed st'.sink ≤ m.elapsed ∧ caseResultsNonneg st'.sink := by
  obtain ⟨info, hget, h0, h1, h2, hsum, hnn⟩ := hinv
  have hTnn : (0:ℚ) ≤ m.elapsed := le_trans h0 (le_trans h1 h2)
  simp only [received_test_result] at hok
  split at hok
  · cases hok
  · rename_i st1 heq
    by_cases hrs : m.status = TestStatus.RUNNING ∨ m.status = TestStatus.SKIPPED
    · rw [if_pos hrs, test_case_running_eq] at heq
      cases heq
      by_cases hic : m.status.is_completed = true
      · rw [if_pos hic] at hok
        rw [case_completed_no_active _ m _ (set_runtime_get _ _) rfl] at hok
        cases hok
        constructor
        · simp only [sumSubElapsed_append, sumSubElapsed, set_test_case_runtime_info]
          rw [hsum]
          linarith
        · simp only [set_test_case_runtime_info]
          exact caseResultsNonneg_append_case hnn _ _ _ (by linarith)
      · rw [if_neg hic] at hok
        cases hok
        constructor
        · simp only [set_test_case_runtime_info]
          rw [hsum]
          linarith
        · simpa only [set_test_case_runtime_info] using hnn
    · rw [if_neg hrs] at heq
      cases heq
      by_cases hic : m.status.is_completed = true
      · rw [if_pos hic] at hok
        cases hact : info.active_subtest_name with
        | none =>
            rw [case_completed_no_active st m info hget hact] at hok
            cases hok
            constructor
            · simp only [sumSubElapsed_append, sumSubElapsed]
              rw [hsum]
              linarith
            · exact caseResultsNonneg_append_case hnn _ _ _ (by linarith)
        | some a =>
            rw [case_completed_active_char st m info a hget hact] at hok
            cases hok
            constructor
            · simp only [sumSubElapsed_append, sumSubElapsed]
              rw [hsum]
              linarith
            · refine caseResultsNonneg_append hnn ?_
              intro m' s' c' e' hm
              simp only [List.mem_cons, List.mem_singleton] at hm
              rcases hm with hm | hm | hm
              · cases hm
              · cases hm
                linarith
              · simp at hm
      · rw [if_neg hic] at hok
        cases hok
        constructor
        · rw [hsum]
          linarith
        · exact hnn

/-- C7: under the well-formedness precondition (non-decreasing elapsed
values, gap-free single-case stream), (i) every sub-test operation leaves
`subtest_total_elapsed` non-decreasing, and (ii) for a case opened by a
Running event at a non-negative elapsed, followed by its sub-test events
and its completion, the sum of all emitted SubResult elapsed values never
exceeds the case's final elapsed value and every emitted CaseResult
elapsed (e.elapsed - subtest_total_elapsed) is non-negative. -/
theorem subtest_elapsed_invariants :
    (∀ (m : SubTestMessage) (st st' : AggState (List Result))
      (info : TestCaseRuntimeInfo),
      dictGet st.testcases_info m.id_ = some info →
      info.last_seen_timestamp ≤ m.elapsed →
      received_sub_test resultsSink m st = Except.ok st' →
      ∃ info', dictGet st'.testcases_info m.id_ = some info' ∧
        info.subtest_total_elapsed ≤ info'.subtest_total_elapsed) ∧
    (∀ (c0 cF : TestResultMessage) (subs : List SubTestMessage)
      (st : AggState (List Result)),
      c0.status = TestStatus.RUNNING →
      0 ≤ c0.elapsed →
      cF.id_ = c0.id_ →
      (subs.all fun m => m.id_ == c0.id_) = true →
      nondecFrom c0.elapsed (subs.map (fun m => m.elapsed) ++ [cF.elapsed]) = true →
      processEvents resultsSink
        (Message.result c0 :: (subs.map Message.sub ++ [Message.result cF])) emptyAgg =
        Except.ok st →
      sumSubElapsed st.sink ≤ cF.elapsed ∧ caseResultsNonneg st.sink) := by
  constructor
  · intro m st st' info hget hls hok
    simp only [received_sub_test] at hok
    split at hok
    · cases hact : info.active_subtest_name with
      | some prev =>
          rw [sub_running_active_char st m info prev hget hact] at hok
          cases hok
          refine ⟨_, dictGet_dictSet_self _ _ _, ?_⟩
          simp only []
          linarith
      | none =>
          simp only [sub_test_case_running, hget, hact] at hok
          cases hok
          rw [mark_subtest_running_eq st m info hget]
          exact ⟨_, dictGet_dictSet_self _ _ _, le_refl _⟩
    · split at hok
      · cases hact : info.active_subtest_name with
        | none =>
            rw [sub_completed_none st m info hget hact] at hok
            cases hok
            refine ⟨_, dictGet_dictSet_self _ _ _, ?_⟩
            simp only []
            linarith
        | some a =>
            by_cases hname : a = m.name
            · rw [sub_completed_match st m info a hget hact hname] at hok
              cases hok
              refine ⟨_, dictGet_dictSet_self _ _ _, ?_⟩
              simp only []
              linarith
            · rw [sub_completed_mismatch resultsSink st m info a hget hact hname] at hok
              cases hok
      · cases hok
        exact ⟨info, hget, le_refl _⟩
  · intro c0 cF subs st hc0 h0e hidF hall hmono hok
    simp only [processEvents] at hok
    split at hok
    · cases hok
    · rename_i st0 heq0
      have heq0' : set_test_case_runtime_info c0
          { testcases_info := emptyAgg.testcases_info, sink := emptyAgg.sink } = st0 := by
        simpa [received_message, received_test_result, hc0, test_case_running_eq,
          TestStatus.is_completed] using heq0
      subst heq0'
      have hinv0 : AggInv c0.id_ c0.elapsed (set_test_case_runtime_info c0
          { testcases_info := emptyAgg.testcases_info, sink := emptyAgg.sink }) := by
        refine ⟨_, set_runtime_get _ _, le_refl _, ?_, ?_, ?_, ?_⟩
        · simp only []
          exact h0e
        · simp only []
          exact le_refl _
        · simp [set_test_case_runtime_info, emptyAgg, sumSubElapsed]
        · intro m' s' c' e' hm
          simp [set_test_case_runtime_info, emptyAgg] at hm
      rw [processEvents_append] at hok
      split at hok
      · cases hok
      · rename_i st2 heq2
        have hinv2 := inv_process_subs c0.id_ subs cF.elapsed c0.elapsed _ st2
          hall hmono hinv0 heq2
        simp only [processEvents] at hok
        split at hok
        · cases hok
        · rename_i st3 heq3
          cases hok
          have hinvF : AggInv cF.id_ cF.elapsed st2 := by
            rw [hidF]
            exact hinv2
          exact final_case_inv cF st2 _ hinvF heq3

/-- Witness for C7 at concrete inputs: (i) completing `sub1` at 3.0 after
it ran from 2.0 grows the accumulated sub-test time; (ii) the end-to-end
scenario satisfies both elapsed-time bounds. -/
theorem subtest_elapsed_invariants_witness :
    (∃ info', dictGet c7w_st.testcases_info "1" = some info' ∧
      infoActive.subtest_total_elapsed ≤ info'.subtest_total_elapsed) ∧
    (sumSubElapsed c4_final.sink ≤ cF_msg.elapsed ∧ caseResultsNonneg c4_final.sink) := by
  constructor
  · exact subtest_elapsed_invariants.1 mSubDone stActive c7w_st infoActive
      (by rfl) (by norm_num [infoActive, mSubDone])
      (by simp [received_sub_test, sub_test_case_completed, sub_test_case_completed_core,
        resultsSink, dictGet, dictSet, mSubDone, stActive, infoActive, c7w_st,
        TestStatus.is_completed] <;> norm_num)
  · exact subtest_elapsed_invariants.2 c0_msg cF_msg c7_subs c4_final
      (by rfl) (by norm_num [c0_msg]) (by rfl) (by decide)
      (by norm_num [nondecFrom, c7_subs, c0_msg, cF_msg]) c4_run
